import Mathlib

/-!
Verification of the LCARS bridge dashboard server (`src/server.js`).

This file gives a shallow embedding of the server's cache layer, task store,
message store, streak computation and broadcast hub, and proves (or refutes)
the behavioural claims of the specification against those definitions.

Modelling conventions:
- machine time (`Date.now()`, ISO timestamps) is a `Nat` in milliseconds;
- JS `null`-able values are `Option`; JS string truthiness is `s ≠ ""`;
- generated ids (`generateId`) are passed in as explicit parameters;
- fallible computations are `Except`;
- the external safe-writer collaborator (`tasks-backup.js`, out of scope per
  the spec) is a parameter `writer : TasksDocument → Bool` giving the success
  of `safeWriteTasks`; on success the pruned document is persisted to disk.
-/

namespace LCARS

/-! ## Cache layer (`getCached`, `invalidateCache`) -/

/-- One entry of the `cache` object: `data` is the stored JS value where
`none` models `null` (both the initial `data: null` and a `null` returned by
a compute function); for non-null values the JS truthiness is supplied
separately.  `lastUpdate` and `ttl` are milliseconds. -/
structure CacheEntry (V : Type) where
  data : Option V
  lastUpdate : Nat
  ttl : Nat
deriving DecidableEq

/-- The `cache` object: a map from key to entry (`none` = key absent). -/
def CacheMap (V : Type) : Type := String → Option (CacheEntry V)

/-- JS truthiness of a cached value: `null` is falsy, a non-null value `v`
has the truthiness `truthy v` of its JS type. -/
def jsTruthy {V : Type} (truthy : V → Bool) : Option V → Bool
  | none => false
  | some v => truthy v

/-- The entry `getCached` works on for `key`: the existing entry, or the
freshly created `{ data: null, lastUpdate: 0, ttl: 30000 }`. -/
def entryOf {V : Type} (c : CacheMap V) (key : String) : CacheEntry V :=
  match c key with
  | some e => e
  | none => ⟨none, 0, 30000⟩

/-- Embedding of `getCached(key, fetchFn)` (src/server.js:120-137) where the
compute function may throw: `fetch` is the outcome of the single invocation
`fetchFn()` would have (`.error e` models a thrown exception, `.ok v` a
returned JS value, `v = none` being `null`).  Returns the call's result (or
the propagated exception), the cache afterwards, and whether `fetchFn` was
invoked.  Note the hit test is `entry.data && (now - entry.lastUpdate) <
entry.ttl`: a falsy stored value never counts as a hit. -/
def getCachedE {V E : Type} (truthy : V → Bool) (c : CacheMap V) (key : String)
    (fetch : Except E (Option V)) (now : Nat) :
    Except E (Option V) × CacheMap V × Bool :=
  let entry := entryOf c key
  let c1 : CacheMap V := fun k => if k = key then some entry else c k
  if jsTruthy truthy entry.data = true ∧ now - entry.lastUpdate < entry.ttl then
    (.ok entry.data, c1, false)
  else
    match fetch with
    | .error e => (.error e, c1, true)
    | .ok v => (.ok v, fun k => if k = key then some ⟨v, now, entry.ttl⟩ else c k, true)

/-- Embedding of `getCached(key, fetchFn)` for a compute function that
returns normally (`fetch` is the value `fetchFn()` returns, `none` = `null`).
Returns (result, cache afterwards, whether `fetchFn` was invoked). -/
def getCached {V : Type} (truthy : V → Bool) (c : CacheMap V) (key : String)
    (fetch : Option V) (now : Nat) :
    Option V × CacheMap V × Bool :=
  let entry := entryOf c key
  let c1 : CacheMap V := fun k => if k = key then some entry else c k
  if jsTruthy truthy entry.data = true ∧ now - entry.lastUpdate < entry.ttl then
    (entry.data, c1, false)
  else
    (fetch, fun k => if k = key then some ⟨fetch, now, entry.ttl⟩ else c k, true)

/-- Embedding of `invalidateCache(keys)` (src/server.js:139-145): sets
`data = null` on every listed key that has an entry. -/
def invalidateCache {V : Type} (keys : List String) (c : CacheMap V) : CacheMap V :=
  fun k =>
    if k ∈ keys then
      match c k with
      | some e => some { e with data := none }
      | none => none
    else c k

/-! ## Claims C2 and C3: cache hit/miss and failure behaviour -/

/-- Claim C2, counterexample: on a fresh key (created with ttl 30000), a
compute function returning `null` is invoked by BOTH of two `getCached`
calls 5 ms apart with no intervening invalidation, because the hit test
`entry.data && ...` treats the stored `null` as a miss.  This refutes
"the compute function is invoked at most once (regardless of the value it
returned, including null)". -/
theorem getCached_null_computes_twice :
    (entryOf (V := Nat) (fun _ => none) "k").ttl = 30000 ∧
    (5 : Nat) - 0 < 30000 ∧
    (getCached (V := Nat) (fun _ => true) (fun _ => none) "k" none 0).2.2 = true ∧
    (getCached (fun _ => true)
      (getCached (V := Nat) (fun _ => true) (fun _ => none) "k" none 0).2.1
      "k" none 5).2.2 = true := by
  decide

/-- Claim C2, amended: if the first of the two calls is a miss whose compute
function returns a truthy (non-null, non-falsy) value, then a second
`getCached` call for the same key within the key's ttl of the first returns
the identical value and does not invoke its compute function (so across the
two calls the compute function runs exactly once).  For a null/falsy
computed value every call re-invokes the compute function. -/
theorem getCached_truthy_hit_within_ttl {V : Type} (truthy : V → Bool)
    (c : CacheMap V) (key : String) (v : V) (f2 : Option V) (t1 t2 : Nat)
    (hv : truthy v = true)
    (hmiss : (getCached truthy c key (some v) t1).2.2 = true)
    (hwin : t2 - t1 < (entryOf c key).ttl) :
    (getCached truthy (getCached truthy c key (some v) t1).2.1 key f2 t2).1
      = (getCached truthy c key (some v) t1).1 ∧
    (getCached truthy (getCached truthy c key (some v) t1).2.1 key f2 t2).2.2
      = false := by
  by_cases h : jsTruthy truthy (entryOf c key).data = true ∧
      t1 - (entryOf c key).lastUpdate < (entryOf c key).ttl
  · simp only [getCached, if_pos h] at hmiss
    exact absurd hmiss (by decide)
  · simp only [getCached, if_neg h]
    have he : entryOf (fun k => if k = key then
        some ⟨some v, t1, (entryOf c key).ttl⟩ else c k) key
        = ⟨some v, t1, (entryOf c key).ttl⟩ := by
      simp [entryOf]
    simp [he, jsTruthy, hv, hwin]

/-- Witness for `getCached_truthy_hit_within_ttl` at a concrete input. -/
theorem getCached_truthy_hit_within_ttl_witness :
    ((fun _ => true : Nat → Bool) 7 = true) ∧
    ((getCached (V := Nat) (fun _ => true) (fun _ => none) "k" (some 7) 0).2.2 = true) ∧
    ((100 : Nat) - 0 < (entryOf (V := Nat) (fun _ => none) "k").ttl) ∧
    ((getCached (fun _ => true)
        (getCached (V := Nat) (fun _ => true) (fun _ => none) "k" (some 7) 0).2.1
        "k" (some 9) 100).1
      = (getCached (V := Nat) (fun _ => true) (fun _ => none) "k" (some 7) 0).1 ∧
     (getCached (fun _ => true)
        (getCached (V := Nat) (fun _ => true) (fun _ => none) "k" (some 7) 0).2.1
        "k" (some 9) 100).2.2 = false) :=
  ⟨rfl, by decide, by decide,
    getCached_truthy_hit_within_ttl (fun _ => true) (fun _ => none) "k" 7
      (some 9) 0 100 rfl (by decide) (by decide)⟩

/-- Claim C3, counterexample: an expired entry (value 5 cached at time 0 with
ttl 10, call at time 20) whose compute function throws makes `getCachedE`
propagate the exception to the caller instead of returning the previous
value: `fetchFn()` is called outside any try/catch in `getCached`. -/
theorem getCachedE_error_propagates :
    (getCachedE (V := Nat) (E := Nat) (fun _ => true)
      (fun k => if k = "k" then some ⟨some 5, 0, 10⟩ else none)
      "k" (.error 0) 20).1 = .error 0 ∧
    (getCachedE (V := Nat) (E := Nat) (fun _ => true)
      (fun k => if k = "k" then some ⟨some 5, 0, 10⟩ else none)
      "k" (.error 0) 20).2.2 = true := by
  constructor
  · rfl
  · rfl

/-- Claim C3, amended: when the entry for the key is not a live truthy hit
and the compute function throws, the exception DOES propagate to the caller,
but the previously cached entry is not overwritten: the cache afterwards
holds the old entry (value, timestamp and ttl unchanged) under the key and
is untouched elsewhere. -/
theorem getCachedE_error_preserves_entry {V E : Type} (truthy : V → Bool)
    (c : CacheMap V) (key : String) (e : E) (now : Nat)
    (hmiss : ¬(jsTruthy truthy (entryOf c key).data = true ∧
      now - (entryOf c key).lastUpdate < (entryOf c key).ttl)) :
    getCachedE truthy c key (.error e) now
      = (.error e, fun k => if k = key then some (entryOf c key) else c k, true) := by
  simp only [getCachedE, if_neg hmiss]

/-- Witness for `getCachedE_error_preserves_entry` at a concrete input. -/
theorem getCachedE_error_preserves_entry_witness :
    (¬(jsTruthy (fun _ => true)
        (entryOf (V := Nat) (fun k => if k = "k" then some ⟨some 5, 0, 10⟩ else none) "k").data = true ∧
      20 - (entryOf (V := Nat) (fun k => if k = "k" then some ⟨some 5, 0, 10⟩ else none) "k").lastUpdate
        < (entryOf (V := Nat) (fun k => if k = "k" then some ⟨some 5, 0, 10⟩ else none) "k").ttl)) ∧
    getCachedE (E := Nat) (fun _ => true)
        (fun k => if k = "k" then some ⟨some 5, 0, 10⟩ else none) "k" (.error 0) 20
      = (.error 0,
         fun k => if k = "k" then
           some (entryOf (V := Nat) (fun k => if k = "k" then some ⟨some 5, 0, 10⟩ else none) "k")
         else (fun k => if k = "k" then some ⟨some 5, 0, 10⟩ else none) k,
         true) :=
  ⟨by decide,
    getCachedE_error_preserves_entry (fun _ => true)
      (fun k => if k = "k" then some ⟨some 5, 0, 10⟩ else none) "k" 0 20 (by decide)⟩

/-! ## Win/loss streak (`getQuarkData`, src/server.js:202-215) -/

/-- One entry of the portfolio `history` array; the streak computation reads
only its `result` field. -/
structure Trade where
  result : String
  profit : Int
deriving DecidableEq

/-- The body of the streak `for` loop of `getQuarkData`
(src/server.js:203-215), processing the history from the most recent trade
backward with accumulators `streakType`/`currentStreak`; returning models
the `break`. -/
def streakAux (streakType : Option String) (count : Nat) :
    List Trade → Nat × Option String
  | [] => (count, streakType)
  | t :: rest =>
    match streakType with
    | none => streakAux (some t.result) 1 rest
    | some ty =>
      if t.result = ty then streakAux (some ty) (count + 1) rest
      else (count, some ty)

/-- The streak computed by `getQuarkData`: the loop runs over the history
indices from `history.length - 1` down to `0`, i.e. over the reversed
(chronological) history. -/
def calcStreak (history : List Trade) : Nat × Option String :=
  streakAux none 0 history.reverse

theorem streakAux_some (ty : String) (l : List Trade) : ∀ c : Nat,
    streakAux (some ty) c l
      = (c + (l.takeWhile (fun t => t.result == ty)).length, some ty) := by
  induction l with
  | nil => intro c; simp [streakAux]
  | cons t rest ih =>
    intro c
    by_cases h : t.result = ty
    · simp [streakAux, h, ih, List.takeWhile_cons]
      omega
    · simp [streakAux, h, List.takeWhile_cons]

/-- The length of `takeWhile p l` is the greatest `n ≤ l.length` such that
the first `n` elements of `l` all satisfy `p`. -/
theorem takeWhile_length_isGreatest {α : Type} (p : α → Bool) (l : List α) :
    IsGreatest {n | n ≤ l.length ∧ ∀ x ∈ l.take n, p x = true}
      (l.takeWhile p).length := by
  induction l with
  | nil =>
    constructor
    · exact ⟨by simp, by simp⟩
    · intro n hn
      simpa using hn.1
  | cons a l ih =>
    cases hp : p a with
    | false =>
      constructor
      · exact ⟨by simp [List.takeWhile_cons, hp], by simp [List.takeWhile_cons, hp]⟩
      · intro n hn
        match n with
        | 0 => simp [List.takeWhile_cons, hp]
        | m + 1 =>
          exfalso
          have : p a = true := hn.2 a (by simp [List.take_succ_cons])
          simp [hp] at this
    | true =>
      obtain ⟨⟨h1, h2⟩, hub⟩ := ih
      constructor
      · constructor
        · simpa [List.takeWhile_cons, hp] using Nat.succ_le_succ h1
        · intro x hx
          simp only [List.takeWhile_cons, if_pos hp, List.length_cons,
            List.take_succ_cons, List.mem_cons] at hx
          rcases hx with rfl | hx
          · exact hp
          · exact h2 x hx
      · intro n hn
        match n with
        | 0 => exact Nat.zero_le _
        | m + 1 =>
          have hm : m ∈ {n | n ≤ l.length ∧ ∀ x ∈ l.take n, p x = true} := by
            refine ⟨by simpa using hn.1, ?_⟩
            intro x hx
            exact hn.2 x (by simp [List.take_succ_cons, hx])
          have := hub hm
          simpa [List.takeWhile_cons, hp] using Nat.succ_le_succ this

/-- Claim C7: the streak computed by `getQuarkData` is the run length and
result value of the maximal suffix of consecutive trades sharing the same
result (scanning most-recent-first, stopping at the first differing result
or the start of history); in particular `[win, win, loss]` (chronological)
yields `(1, loss)`, `[win, win]` yields `(2, win)` and `[]` yields
`(0, null)`. -/
theorem calcStreak_spec :
    calcStreak [] = (0, none) ∧
    calcStreak [⟨"win", 0⟩, ⟨"win", 0⟩, ⟨"loss", 0⟩] = (1, some "loss") ∧
    calcStreak [⟨"win", 0⟩, ⟨"win", 0⟩] = (2, some "win") ∧
    ∀ h : List Trade,
      (calcStreak h).2 = h.getLast?.map Trade.result ∧
      IsGreatest
        {n | n ≤ h.length ∧
          ∀ x ∈ h.drop (h.length - n), some x.result = h.getLast?.map Trade.result}
        (calcStreak h).1 := by
  refine ⟨rfl, by decide, by decide, ?_⟩
  intro h
  cases hr : h.reverse with
  | nil =>
    have hnil : h = [] := by simpa using congrArg List.reverse hr
    subst hnil
    refine ⟨rfl, ⟨by simp [calcStreak, streakAux], ?_⟩, ?_⟩
    · intro x hx
      simp at hx
    · intro n hn
      simpa [calcStreak, streakAux] using hn.1
  | cons r rest =>
    have hh : h = rest.reverse ++ [r] := by
      have := congrArg List.reverse hr
      simpa using this
    have hlast : h.getLast? = some r := by
      rw [hh]
      simp
    have hs : calcStreak h
        = (1 + (rest.takeWhile (fun t => t.result == r.result)).length,
           some r.result) := by
      rw [calcStreak, hr]
      simp [streakAux, streakAux_some]
    have hdrop : ∀ n : Nat, h.drop (h.length - n) = (h.reverse.take n).reverse := by
      intro n
      rw [← List.rtake_eq_reverse_take_reverse]
      rfl
    have hset :
        {n | n ≤ h.length ∧
          ∀ x ∈ h.drop (h.length - n), some x.result = h.getLast?.map Trade.result}
        = {n | n ≤ h.reverse.length ∧
            ∀ x ∈ h.reverse.take n, (fun t => t.result == r.result) x = true} := by
      ext n
      simp only [Set.mem_setOf_eq, List.length_reverse, hlast, hdrop n,
        List.mem_reverse, Option.map_some', Option.some.injEq, beq_iff_eq]
    have G := takeWhile_length_isGreatest (fun t => t.result == r.result) h.reverse
    have hlen : (h.reverse.takeWhile (fun t => t.result == r.result)).length
        = (calcStreak h).1 := by
      rw [hr, hs]
      simp [List.takeWhile_cons, Nat.add_comm]
    rw [hlen, ← hset] at G
    exact ⟨by rw [hs, hlast]; rfl, G⟩

/-! ## Task store data model (src/server.js:390-749, 1265-1290) -/

/-- A task comment (`addTaskComment`, src/server.js:601-606). -/
structure TaskComment where
  id : String
  author : String
  text : String
  timestamp : Nat
deriving DecidableEq

/-- A per-task log entry (`addTaskLog`, src/server.js:639-645). -/
structure TaskLog where
  id : String
  type : String
  agent : String
  message : String
  timestamp : Nat
deriving DecidableEq

/-- An entry of the activity feed.  The context fields (`taskTitle`, `from`,
`to`, `target`, `message`, `logType`) are present only on some record kinds,
hence `Option`. -/
structure Activity where
  id : String
  type : String
  action : String
  agent : String
  taskId : String
  taskTitle : Option String
  «from» : Option String
  «to» : Option String
  target : Option String
  message : Option String
  logType : Option String
  timestamp : Nat
deriving DecidableEq

/-- A task entity.  A missing `comments`/`logs` array is modelled as `[]`
(the code initializes them on demand; `[]` is truthy in JS so the pruning
guard behaves identically on both). -/
structure Task where
  id : String
  title : String
  description : String
  status : String
  assignee : Option String
  category : String
  priority : String
  createdAt : Nat
  updatedAt : Nat
  comments : List TaskComment
  logs : List TaskLog
deriving DecidableEq

/-- An agent profile from the `agents` map of the default document. -/
structure AgentProfile where
  name : String
  role : String
  department : String
  badges : List String
  color : String
  model : String
deriving DecidableEq

/-- The root persisted tasks document. -/
structure TasksDocument where
  version : String
  lastUpdated : Nat
  columns : List String
  tasks : List Task
  activity : List Activity
  agents : List (String × AgentProfile)
deriving DecidableEq

/-- Embedding of `getDefaultTasks()` (src/server.js:520-551). -/
def getDefaultTasks (now : Nat) : TasksDocument :=
  { version := "1.0"
    lastUpdated := now
    columns := ["inbox", "assigned", "in_progress", "peer_review", "review", "done"]
    tasks := []
    activity := []
    agents :=
      [("seven", ⟨"Seven of Nine", "Number One", "CMD", ["LEAD"], "#cc99cc", "opus"⟩),
       ("geordi", ⟨"Geordi La Forge", "Chief Engineer", "ENG", ["SPC"], "#9999ff", "opus"⟩),
       ("belanna", ⟨"B'Elanna Torres", "Engineering", "ENG", ["SPC"], "#cc6666", "codex"⟩),
       ("icheb", ⟨"Icheb", "Borg Specialist", "ENG", [], "#66cccc", "minimax"⟩),
       ("uhura", ⟨"Nyota Uhura", "Comms Officer", "COM", ["SPC"], "#cc6699", "opus"⟩),
       ("hoshi", ⟨"Hoshi Sato", "Linguist", "COM", [], "#cc99ff", "codex"⟩),
       ("harry", ⟨"Harry Kim", "Operations", "COM", [], "#99ccff", "minimax"⟩),
       ("spock", ⟨"Spock", "Science Officer", "SCI", ["SPC"], "#99cc99", "opus"⟩),
       ("tuvok", ⟨"Tuvok", "Security/Research", "SCI", [], "#9999cc", "codex"⟩),
       ("doctor", ⟨"The Doctor", "EMH Research", "SCI", [], "#99ff99", "minimax"⟩),
       ("quark", ⟨"Quark", "Trade Advisor", "TRD", ["SPC"], "#ffcc99", "opus"⟩),
       ("tom", ⟨"Tom Paris", "Risk Trader", "TRD", [], "#ff9999", "codex"⟩),
       ("neelix", ⟨"Neelix", "Resource Mgmt", "TRD", [], "#ffcc66", "minimax"⟩),
       ("data", ⟨"Data", "Quality Control", "QC", ["SPC", "QC"], "#ffd700", "opus"⟩),
       ("lal", ⟨"Lal", "QC Testing", "QC", ["QC"], "#ffdd55", "codex"⟩)] }

/-- `MAX_ACTIVITY_ENTRIES` (src/server.js:416). -/
def MAX_ACTIVITY_ENTRIES : Nat := 500

/-- `MAX_LOGS_PER_TASK` (src/server.js:417). -/
def MAX_LOGS_PER_TASK : Nat := 50

/-- Embedding of `pruneTaskData(tasksData)` (src/server.js:420-441): caps the
activity feed at its most recent `MAX_ACTIVITY_ENTRIES` entries
(`slice(-N)` = `drop (length - N)`) and each task's logs at the most recent
`MAX_LOGS_PER_TASK`.  Returns the pruned document and the `pruned` flag. -/
def pruneTaskData (d : TasksDocument) : TasksDocument × Bool :=
  let activityPruned :=
    if d.activity.length > MAX_ACTIVITY_ENTRIES then
      d.activity.drop (d.activity.length - MAX_ACTIVITY_ENTRIES)
    else d.activity
  let p1 := d.activity.length > MAX_ACTIVITY_ENTRIES
  let tasksPruned := d.tasks.map fun t =>
    if t.logs.length > MAX_LOGS_PER_TASK then
      { t with logs := t.logs.drop (t.logs.length - MAX_LOGS_PER_TASK) }
    else t
  let p2 := d.tasks.any fun t => t.logs.length > MAX_LOGS_PER_TASK
  ({ d with activity := activityPruned, tasks := tasksPruned }, p1 || p2)

/-! ## Task store state machine

`ServerState` is the state relevant to the task store: the tasks file on
disk (`none` = absent) and the `tasksCache` read cache.  Because the code
returns the cached object itself and mutates it in place, any mutation made
to a document obtained from `loadTasks` is also visible in the cache; the
model threads this aliasing explicitly. -/

structure ServerState where
  disk : Option TasksDocument
  cacheData : Option TasksDocument
  cacheLastLoad : Nat
deriving DecidableEq

/-- `TASKS_CACHE_TTL` (src/server.js:394). -/
def TASKS_CACHE_TTL : Nat := 2000

/-- The disk-reading tail of `loadTasks` (src/server.js:403-412): on a cache
miss, parse the file if present (filling the cache with the very object that
is returned), else fall back to `getDefaultTasks()` without touching the
cache.  The third component records whether the returned document is the
object now held by the cache (it is, except on the default fallback). -/
def loadTasksDisk (s : ServerState) (now : Nat) : TasksDocument × ServerState × Bool :=
  match s.disk with
  | some d => (d, { disk := s.disk, cacheData := some d, cacheLastLoad := now }, true)
  | none => (getDefaultTasks now, s, false)

/-- Embedding of `loadTasks()` (src/server.js:396-413): serve the cached
document if it is non-null and fresher than `TASKS_CACHE_TTL`, else reload
from disk. -/
def loadTasks (s : ServerState) (now : Nat) : TasksDocument × ServerState × Bool :=
  match s.cacheData with
  | some d =>
    if now - s.cacheLastLoad < TASKS_CACHE_TTL then (d, s, true)
    else loadTasksDisk s now
  | none => loadTasksDisk s now

/-- Embedding of `saveTasks(tasksData)` (src/server.js:485-517).  The
external safe-writer collaborator (`tasks-backup.js`, out of scope per the
spec, contract `write(doc, reason) → {success, ...}`) is the parameter
`writer`; on success it persists the document.  `saveTasks` first prunes the
document in place — `aliased` says whether the read cache holds that same
object — then on success invalidates the cache (`tasksCache.data = null`);
on a blocked/failed write it returns `false` WITHOUT invalidating the
cache. -/
def saveTasks (writer : TasksDocument → Bool) (s : ServerState) (aliased : Bool)
    (d : TasksDocument) : Bool × ServerState :=
  let d' := (pruneTaskData d).1
  if writer d' then
    (true, { disk := some d', cacheData := none, cacheLastLoad := s.cacheLastLoad })
  else
    (false, { disk := s.disk,
              cacheData := if aliased then some d' else s.cacheData,
              cacheLastLoad := s.cacheLastLoad })

/-- Replace the first element satisfying `p` (the JS
`arr[arr.findIndex(p)] = new` pattern). -/
def setFirst {α : Type} (p : α → Bool) (new : α) : List α → List α
  | [] => []
  | a :: l => if p a then new :: l else a :: setFirst p new l

/-- The shallow merge `{ ...oldTask, ...updates, updatedAt: now }` of
`updateTask`, restricted to the task's own fields. -/
structure TaskUpdates where
  title : Option String := none
  description : Option String := none
  status : Option String := none
  assignee : Option (Option String) := none
  category : Option String := none
  priority : Option String := none
deriving DecidableEq

def applyUpdates (t : Task) (u : TaskUpdates) (now : Nat) : Task :=
  { t with
    title := u.title.getD t.title
    description := u.description.getD t.description
    status := u.status.getD t.status
    assignee := u.assignee.getD t.assignee
    category := u.category.getD t.category
    priority := u.priority.getD t.priority
    updatedAt := now }

/-- The in-memory mutation step of `updateTask(taskId, updates)`
(src/server.js:559-585): find the task, shallow-merge the updates, and —
when `updates.status` is truthy (a non-empty string) and differs from the
prior status — push one "moved" activity record.  `none` = task not found. -/
def updateTaskDoc (d : TasksDocument) (taskId : String) (u : TaskUpdates)
    (now : Nat) (actId : String) : Option (Task × TasksDocument) :=
  match d.tasks.find? (fun t => t.id == taskId) with
  | none => none
  | some oldTask =>
    let updatedTask := applyUpdates oldTask u now
    let movedActivity : List Activity :=
      match u.status with
      | some ns =>
        if ns ≠ "" ∧ ns ≠ oldTask.status then
          [{ id := actId, type := "status", action := "moved", agent := "system",
             taskId := taskId, taskTitle := some updatedTask.title,
             «from» := some oldTask.status, «to» := some ns, target := none,
             message := none, logType := none, timestamp := now }]
        else []
      | none => []
    some (updatedTask,
      { d with tasks := setFirst (fun t => t.id == taskId) updatedTask d.tasks,
               activity := d.activity ++ movedActivity })

/-- Embedding of `updateTask(taskId, updates)` (src/server.js:559-589):
load → mutate → `saveTasks`.  Returns the value handed back to the caller
(the updated task, or `null` when not found — note the result of
`saveTasks` is ignored), the resulting server state, and whether
`saveTasks` was called. -/
def updateTask (writer : TasksDocument → Bool) (s : ServerState)
    (taskId : String) (u : TaskUpdates) (now : Nat) (actId : String) :
    Option Task × ServerState × Bool :=
  match updateTaskDoc (loadTasks s now).1 taskId u now actId with
  | none => (none, (loadTasks s now).2.1, false)
  | some (task, d2) =>
    (some task,
     (saveTasks writer (loadTasks s now).2.1 (loadTasks s now).2.2 d2).2, true)

/-- The in-memory mutation step of `deleteTask(taskId)`
(src/server.js:1266-1287): splice the task out and push one "deleted"
activity record. -/
def deleteTaskDoc (d : TasksDocument) (taskId : String) (now : Nat)
    (actId : String) : Option (Task × TasksDocument) :=
  match d.tasks.find? (fun t => t.id == taskId) with
  | none => none
  | some deletedTask =>
    some (deletedTask,
      { d with tasks := d.tasks.eraseP (fun t => t.id == taskId),
               activity := d.activity ++
                 [{ id := actId, type := "task", action := "deleted",
                    agent := "system", taskId := taskId,
                    taskTitle := some deletedTask.title, «from» := none,
                    «to» := none, target := none, message := none,
                    logType := none, timestamp := now }] })

/-- Embedding of `deleteTask(taskId)` (src/server.js:1266-1290). -/
def deleteTask (writer : TasksDocument → Bool) (s : ServerState)
    (taskId : String) (now : Nat) (actId : String) :
    Option Task × ServerState × Bool :=
  match deleteTaskDoc (loadTasks s now).1 taskId now actId with
  | none => (none, (loadTasks s now).2.1, false)
  | some (task, d2) =>
    (some task,
     (saveTasks writer (loadTasks s now).2.1 (loadTasks s now).2.2 d2).2, true)

/-- The in-memory mutation step of `addTaskComment(taskId, author, text)`
(src/server.js:592-623): append the comment to the task, refresh its
`updatedAt`, and push one comment-"added" activity record.  Returns the
created comment. -/
def addTaskCommentDoc (d : TasksDocument) (taskId author text : String)
    (now : Nat) (commentId actId : String) :
    Option (TaskComment × TasksDocument) :=
  match d.tasks.find? (fun t => t.id == taskId) with
  | none => none
  | some oldTask =>
    let comment : TaskComment := ⟨commentId, author, text, now⟩
    let updatedTask :=
      { oldTask with comments := oldTask.comments ++ [comment], updatedAt := now }
    some (comment,
      { d with tasks := setFirst (fun t => t.id == taskId) updatedTask d.tasks,
               activity := d.activity ++
                 [{ id := actId, type := "comment", action := "added",
                    agent := author, taskId := taskId,
                    taskTitle := oldTask.title, «from» := none, «to» := none,
                    target := none, message := none, logType := none,
                    timestamp := now }] })

/-- Embedding of `addTaskComment(taskId, author, text)`
(src/server.js:592-627). -/
def addTaskComment (writer : TasksDocument → Bool) (s : ServerState)
    (taskId author text : String) (now : Nat) (commentId actId : String) :
    Option TaskComment × ServerState × Bool :=
  match addTaskCommentDoc (loadTasks s now).1 taskId author text now commentId actId with
  | none => (none, (loadTasks s now).2.1, false)
  | some (c, d2) =>
    (some c,
     (saveTasks writer (loadTasks s now).2.1 (loadTasks s now).2.2 d2).2, true)

/-- JS truthiness of the optional `assignee` argument: `null`/absent and the
empty string are falsy. -/
def assigneeTruthy : Option String → Bool
  | none => false
  | some a => a != ""

/-- The in-memory mutation step of `createTask` (src/server.js:706-747):
build the task (`status` is `"assigned"` iff the assignee is truthy), append
it, push one "created" activity record and — iff the assignee is truthy —
one "assigned" activity record. -/
def createTaskDoc (d : TasksDocument) (title description : String)
    (assignee : Option String) (category priority : String) (now : Nat)
    (taskId actId1 actId2 : String) : Task × TasksDocument :=
  let task : Task :=
    { id := taskId, title := title, description := description
      status := if assigneeTruthy assignee then "assigned" else "inbox"
      assignee := assignee, category := category, priority := priority
      createdAt := now, updatedAt := now, comments := [], logs := [] }
  let createdActivity : Activity :=
    { id := actId1, type := "task", action := "created", agent := "system",
      taskId := taskId, taskTitle := some title, «from» := none, «to» := none,
      target := none, message := none, logType := none, timestamp := now }
  let assignedActivity : List Activity :=
    if assigneeTruthy assignee then
      [{ id := actId2, type := "status", action := "assigned",
         agent := "system", taskId := taskId, taskTitle := none,
         «from» := none, «to» := none, target := assignee, message := none,
         logType := none, timestamp := now }]
    else []
  (task, { d with tasks := d.tasks ++ [task],
                  activity := d.activity ++ [createdActivity] ++ assignedActivity })

/-- Embedding of `createTask(title, description, assignee, category,
priority)` (src/server.js:706-749). -/
def createTask (writer : TasksDocument → Bool) (s : ServerState)
    (title description : String) (assignee : Option String)
    (category priority : String) (now : Nat) (taskId actId1 actId2 : String) :
    Task × ServerState :=
  ((createTaskDoc (loadTasks s now).1 title description assignee category
      priority now taskId actId1 actId2).1,
   (saveTasks writer (loadTasks s now).2.1 (loadTasks s now).2.2
      (createTaskDoc (loadTasks s now).1 title description assignee category
        priority now taskId actId1 actId2).2).2)

/-! ## Helper lemmas about the task store -/

theorem loadTasks_disk (s : ServerState) (now : Nat) :
    ((loadTasks s now).2.1).disk = s.disk := by
  unfold loadTasks
  cases hcd : s.cacheData with
  | none =>
    unfold loadTasksDisk
    cases hdk : s.disk <;> simp [hdk]
  | some d =>
    by_cases ht : now - s.cacheLastLoad < TASKS_CACHE_TTL
    · simp [ht]
    · simp only [if_neg ht]
      unfold loadTasksDisk
      cases hdk : s.disk <;> simp [hdk]

theorem loadTasks_reload (s : ServerState) (now : Nat) :
    (loadTasks (loadTasks s now).2.1 now).1 = (loadTasks s now).1 := by
  unfold loadTasks
  cases hcd : s.cacheData with
  | none =>
    unfold loadTasksDisk
    cases hdk : s.disk with
    | none => simp [loadTasks, loadTasksDisk, hcd, hdk]
    | some d => simp [TASKS_CACHE_TTL]
  | some d =>
    by_cases ht : now - s.cacheLastLoad < TASKS_CACHE_TTL
    · simp [ht, hcd]
    · simp only [if_neg ht]
      unfold loadTasksDisk
      cases hdk : s.disk with
      | none => simp [loadTasks, loadTasksDisk, hcd, hdk, ht]
      | some d' => simp [TASKS_CACHE_TTL]

/-! ## Claim C4: operations on a missing task id -/

/-- Claim C4: `updateTask`, `deleteTask` and `addTaskComment` applied to a
task id that is not in the document all return `null`, perform no save, and
leave the server state exactly as the read left it: the on-disk document is
unchanged and a reload observes the identical document. -/
theorem notFound_no_mutation (writer : TasksDocument → Bool) (s : ServerState)
    (taskId : String) (u : TaskUpdates) (author text : String)
    (now : Nat) (commentId actId : String)
    (hfind : ((loadTasks s now).1.tasks.find? (fun t => t.id == taskId)) = none) :
    updateTask writer s taskId u now actId = (none, (loadTasks s now).2.1, false) ∧
    deleteTask writer s taskId now actId = (none, (loadTasks s now).2.1, false) ∧
    addTaskComment writer s taskId author text now commentId actId
      = (none, (loadTasks s now).2.1, false) ∧
    ((loadTasks s now).2.1).disk = s.disk ∧
    (loadTasks ((loadTasks s now).2.1) now).1 = (loadTasks s now).1 := by
  refine ⟨?_, ?_, ?_, loadTasks_disk s now, loadTasks_reload s now⟩
  · simp [updateTask, updateTaskDoc, hfind]
  · simp [deleteTask, deleteTaskDoc, hfind]
  · simp [addTaskComment, addTaskCommentDoc, hfind]

/-- Witness for `notFound_no_mutation` at a concrete input. -/
theorem notFound_no_mutation_witness :
    ((loadTasks ⟨some (getDefaultTasks 0), none, 0⟩ 5).1.tasks.find?
      (fun t => t.id == "nope") = none) ∧
    (updateTask (fun _ => true) ⟨some (getDefaultTasks 0), none, 0⟩ "nope" {} 5 "a1"
      = (none, (loadTasks ⟨some (getDefaultTasks 0), none, 0⟩ 5).2.1, false) ∧
     deleteTask (fun _ => true) ⟨some (getDefaultTasks 0), none, 0⟩ "nope" 5 "a1"
      = (none, (loadTasks ⟨some (getDefaultTasks 0), none, 0⟩ 5).2.1, false) ∧
     addTaskComment (fun _ => true) ⟨some (getDefaultTasks 0), none, 0⟩ "nope"
        "seven" "hi" 5 "c1" "a1"
      = (none, (loadTasks ⟨some (getDefaultTasks 0), none, 0⟩ 5).2.1, false) ∧
     ((loadTasks ⟨some (getDefaultTasks 0), none, 0⟩ 5).2.1).disk
      = some (getDefaultTasks 0) ∧
     (loadTasks ((loadTasks ⟨some (getDefaultTasks 0), none, 0⟩ 5).2.1) 5).1
      = (loadTasks ⟨some (getDefaultTasks 0), none, 0⟩ 5).1) :=
  ⟨by decide,
    notFound_no_mutation (fun _ => true) ⟨some (getDefaultTasks 0), none, 0⟩
      "nope" {} "seven" "hi" 5 "c1" "a1" (by decide)⟩

/-! ## Claim C1: a mutation whose persist step is refused -/

/-- Test fixture: a document holding one inbox task `t1`. -/
def blockedDoc : TasksDocument :=
  { getDefaultTasks 0 with
    tasks := [⟨"t1", "Recalibrate", "", "inbox", none, "general", "medium",
               0, 0, [], []⟩] }

/-- Test fixture: server state with `blockedDoc` on disk and a cold cache. -/
def blockedState : ServerState := ⟨some blockedDoc, none, 0⟩

/-- Test fixture: the task of `blockedDoc` after `{status: "done"}` at 100. -/
def blockedUpdatedTask : Task :=
  ⟨"t1", "Recalibrate", "", "done", none, "general", "medium", 0, 100, [], []⟩

/-- Test fixture: `blockedDoc` after the in-memory mutation step of
`updateTask("t1", {status: "done"})` at time 100 with activity id `a1`. -/
def blockedDoc2 : TasksDocument :=
  { blockedDoc with
    tasks := [blockedUpdatedTask]
    activity := [⟨"a1", "status", "moved", "system", "t1", some "Recalibrate",
                  some "inbox", some "done", none, none, none, 100⟩] }

/-- Claim C1, counterexample: with the safe writer refusing the write,
`updateTask` still returns the updated task (it does not report failure to
its caller: the result of `saveTasks` is ignored at src/server.js:587), and
although the disk is untouched, the mutation IS observable through a
subsequent `loadTasks` 1000 ms later (within the 2000 ms read-cache TTL),
because the cache holds the mutated object and a failed save does not
invalidate it. -/
theorem updateTask_saveBlocked_counterexample :
    (updateTask (fun _ => false) blockedState "t1" { status := some "done" }
      100 "a1").1 ≠ none ∧
    (updateTask (fun _ => false) blockedState "t1" { status := some "done" }
      100 "a1").2.1.disk = some blockedDoc ∧
    ((loadTasks (updateTask (fun _ => false) blockedState "t1"
        { status := some "done" } 100 "a1").2.1 1100).1.tasks.find?
      (fun t => t.id == "t1")).map Task.status = some "done" ∧
    (1100 : Nat) - 100 < TASKS_CACHE_TTL := by
  decide

/-- Claim C1, amended: when the safe writer refuses the write, the mutation
is indeed not durably applied (the on-disk document is unchanged), but
`updateTask` does NOT report failure — it returns the updated task — and the
mutated document remains observable through `loadTasks` while the read cache
is live; only a `loadTasks` at or after `TASKS_CACHE_TTL` ms past the load
returns the unchanged on-disk document. -/
theorem updateTask_saveBlocked (s : ServerState) (taskId : String)
    (u : TaskUpdates) (now : Nat) (actId : String) (d : TasksDocument)
    (task : Task) (d2 : TasksDocument)
    (hdisk : s.disk = some d) (hcache : s.cacheData = none)
    (hdoc : updateTaskDoc d taskId u now actId = some (task, d2)) :
    updateTask (fun _ => false) s taskId u now actId
      = (some task, ⟨some d, some (pruneTaskData d2).1, now⟩, true) ∧
    (loadTasks (updateTask (fun _ => false) s taskId u now actId).2.1 now).1
      = (pruneTaskData d2).1 ∧
    (loadTasks (updateTask (fun _ => false) s taskId u now actId).2.1
      (now + TASKS_CACHE_TTL)).1 = d := by
  have hL : loadTasks s now = (d, ⟨some d, some d, now⟩, true) := by
    unfold loadTasks loadTasksDisk
    rw [hcache, hdisk]
  have h1 : updateTask (fun _ => false) s taskId u now actId
      = (some task, ⟨some d, some (pruneTaskData d2).1, now⟩, true) := by
    unfold updateTask
    rw [hL]
    simp [hdoc, saveTasks]
  refine ⟨h1, ?_, ?_⟩
  · rw [h1]
    simp [loadTasks, TASKS_CACHE_TTL]
  · rw [h1]
    have hnot : ¬(now + TASKS_CACHE_TTL - now < TASKS_CACHE_TTL) := by omega
    simp [loadTasks, loadTasksDisk, hnot]

/-- Witness for `updateTask_saveBlocked` at a concrete input. -/
theorem updateTask_saveBlocked_witness :
    (blockedState.disk = some blockedDoc) ∧
    (blockedState.cacheData = none) ∧
    (updateTaskDoc blockedDoc "t1" { status := some "done" } 100 "a1"
      = some (blockedUpdatedTask, blockedDoc2)) ∧
    (updateTask (fun _ => false) blockedState "t1" { status := some "done" }
        100 "a1"
      = (some blockedUpdatedTask,
         ⟨some blockedDoc, some (pruneTaskData blockedDoc2).1, 100⟩, true) ∧
     (loadTasks (updateTask (fun _ => false) blockedState "t1"
        { status := some "done" } 100 "a1").2.1 100).1
      = (pruneTaskData blockedDoc2).1 ∧
     (loadTasks (updateTask (fun _ => false) blockedState "t1"
        { status := some "done" } 100 "a1").2.1 (100 + TASKS_CACHE_TTL)).1
      = blockedDoc) :=
  ⟨rfl, rfl, by decide,
    updateTask_saveBlocked blockedState "t1" { status := some "done" } 100
      "a1" blockedDoc blockedUpdatedTask blockedDoc2 rfl rfl (by decide)⟩

/-! ## Helper lemmas for successful task mutations -/

theorem saveTasks_success (s : ServerState) (al : Bool) (d : TasksDocument) :
    saveTasks (fun _ => true) s al d
      = (true, ⟨some (pruneTaskData d).1, none, s.cacheLastLoad⟩) := by
  simp [saveTasks]

theorem loadTasks_cold (dsk : TasksDocument) (cll now : Nat) :
    loadTasks ⟨some dsk, none, cll⟩ now
      = (dsk, ⟨some dsk, some dsk, now⟩, true) := rfl

theorem pruneTaskData_short_activity (d : TasksDocument)
    (h : ¬ d.activity.length > MAX_ACTIVITY_ENTRIES) :
    (pruneTaskData d).1.activity = d.activity := by
  simp [pruneTaskData, h]

theorem pruneTaskData_id (d : TasksDocument)
    (h1 : ¬ d.activity.length > MAX_ACTIVITY_ENTRIES)
    (h2 : ∀ x ∈ d.tasks, ¬ x.logs.length > MAX_LOGS_PER_TASK) :
    (pruneTaskData d).1 = d := by
  have ht : d.tasks.map (fun t =>
      if t.logs.length > MAX_LOGS_PER_TASK then
        { t with logs := t.logs.drop (t.logs.length - MAX_LOGS_PER_TASK) }
      else t) = d.tasks := by
    conv_rhs => rw [← List.map_id d.tasks]
    exact List.map_congr_left (fun x hx => by simp [h2 x hx])
  simp [pruneTaskData, h1, ht]

theorem find?_setFirst {α : Type} (p : α → Bool) (new : α) (l : List α)
    (t : α) (h : l.find? p = some t) (hnew : p new = true) :
    (setFirst p new l).find? p = some new := by
  induction l with
  | nil => simp [List.find?] at h
  | cons a l ih =>
    by_cases ha : p a = true
    · simp [setFirst, ha, List.find?_cons_of_pos, hnew]
    · rw [List.find?_cons_of_neg _ ha] at h
      simp only [setFirst, if_neg ha]
      rw [List.find?_cons_of_neg _ ha]
      exact ih h

theorem mem_setFirst {α : Type} (p : α → Bool) (new : α) (l : List α) :
    ∀ x ∈ setFirst p new l, x = new ∨ x ∈ l := by
  induction l with
  | nil => simp [setFirst]
  | cons a l ih =>
    intro x hx
    by_cases ha : p a = true
    · simp only [setFirst, if_pos ha, List.mem_cons] at hx
      rcases hx with rfl | hx
      · exact .inl rfl
      · exact .inr (List.mem_cons_of_mem _ hx)
    · simp only [setFirst, if_neg ha, List.mem_cons] at hx
      rcases hx with rfl | hx
      · exact .inr (List.mem_cons_self _ _)
      · rcases ih x hx with h | h
        · exact .inl h
        · exact .inr (List.mem_cons_of_mem _ h)

/-- The document produced by the in-memory mutation step of `updateTask`
when the task found for `taskId` is `t`. -/
def mutatedDoc (d : TasksDocument) (taskId : String) (u : TaskUpdates)
    (now : Nat) (actId : String) (t : Task) : TasksDocument :=
  { d with
    tasks := setFirst (fun x => x.id == taskId) (applyUpdates t u now) d.tasks
    activity := d.activity ++
      (match u.status with
       | some ns =>
         if ns ≠ "" ∧ ns ≠ t.status then
           [{ id := actId, type := "status", action := "moved",
              agent := "system", taskId := taskId,
              taskTitle := some (applyUpdates t u now).title,
              «from» := some t.status, «to» := some ns, target := none,
              message := none, logType := none, timestamp := now }]
         else []
       | none => []) }

theorem updateTaskDoc_found (d : TasksDocument) (taskId : String)
    (u : TaskUpdates) (now : Nat) (actId : String) (t : Task)
    (hfind : d.tasks.find? (fun x => x.id == taskId) = some t) :
    updateTaskDoc d taskId u now actId
      = some (applyUpdates t u now, mutatedDoc d taskId u now actId t) := by
  simp [updateTaskDoc, hfind, mutatedDoc]

theorem updateTask_success (s : ServerState) (taskId : String)
    (u : TaskUpdates) (now : Nat) (actId : String) (t : Task)
    (hfind : (loadTasks s now).1.tasks.find? (fun x => x.id == taskId) = some t) :
    updateTask (fun _ => true) s taskId u now actId
      = (some (applyUpdates t u now),
         ⟨some (pruneTaskData
            (mutatedDoc (loadTasks s now).1 taskId u now actId t)).1,
          none, (loadTasks s now).2.1.cacheLastLoad⟩,
         true) := by
  unfold updateTask
  rw [updateTaskDoc_found _ _ _ _ _ _ hfind]
  simp [saveTasks_success]

/-! ## Claim C5: "moved" activity records of `updateTask` -/

/-- Claim C5: for an existing task (valid status updates, activity feed below
the pruning bound, per-task logs within bound), the persisted document of
`updateTask` carries exactly one appended "moved" activity record with
`from` = prior status and `to` = new status iff the updates contain a status
different from the prior one (otherwise the activity feed is unchanged); and
patching the status to "done" and then back to "inbox" appends exactly two
"moved" records with the correct `from`/`to` fields. -/
theorem updateTask_moved_activity (s : ServerState) (taskId : String)
    (u : TaskUpdates) (now now2 : Nat) (actId actId2 : String) (t : Task)
    (hfind : (loadTasks s now).1.tasks.find? (fun x => x.id == taskId) = some t)
    (hvalid : ∀ ns, u.status = some ns → ns ≠ "")
    (hlen : (loadTasks s now).1.activity.length + 1 < MAX_ACTIVITY_ENTRIES)
    (hlogs : ∀ x ∈ (loadTasks s now).1.tasks,
      ¬ x.logs.length > MAX_LOGS_PER_TASK) :
    (∃ d', (updateTask (fun _ => true) s taskId u now actId).2.1.disk = some d' ∧
      ((∃ ns, u.status = some ns ∧ ns ≠ t.status) →
        d'.activity = (loadTasks s now).1.activity ++
          [{ id := actId, type := "status", action := "moved",
             agent := "system", taskId := taskId,
             taskTitle := some (applyUpdates t u now).title,
             «from» := some t.status, «to» := u.status, target := none,
             message := none, logType := none, timestamp := now }]) ∧
      ((¬ ∃ ns, u.status = some ns ∧ ns ≠ t.status) →
        d'.activity = (loadTasks s now).1.activity)) ∧
    (t.status ≠ "done" →
      ∃ d'', (updateTask (fun _ => true)
          (updateTask (fun _ => true) s taskId { status := some "done" } now
            actId).2.1
          taskId { status := some "inbox" } now2 actId2).2.1.disk = some d'' ∧
        d''.activity = (loadTasks s now).1.activity ++
          [{ id := actId, type := "status", action := "moved",
             agent := "system", taskId := taskId,
             taskTitle := some t.title, «from» := some t.status,
             «to» := some "done", target := none, message := none,
             logType := none, timestamp := now },
           { id := actId2, type := "status", action := "moved",
             agent := "system", taskId := taskId,
             taskTitle := some t.title, «from» := some "done",
             «to» := some "inbox", target := none, message := none,
             logType := none, timestamp := now2 }]) := by
  constructor
  · rw [updateTask_success s taskId u now actId t hfind]
    refine ⟨_, rfl, ?_, ?_⟩
    · rintro ⟨ns, hns, hne⟩
      have hg : ns ≠ "" ∧ ns ≠ t.status := ⟨hvalid ns hns, hne⟩
      have hact : (mutatedDoc (loadTasks s now).1 taskId u now actId t).activity
          = (loadTasks s now).1.activity ++
            [{ id := actId, type := "status", action := "moved",
               agent := "system", taskId := taskId,
               taskTitle := some (applyUpdates t u now).title,
               «from» := some t.status, «to» := some ns, target := none,
               message := none, logType := none, timestamp := now }] := by
        simp [mutatedDoc, hns, hg]
      have hshort :
          ¬ (mutatedDoc (loadTasks s now).1 taskId u now actId t).activity.length
            > MAX_ACTIVITY_ENTRIES := by
        rw [hact, List.length_append]
        simp only [List.length_singleton]
        omega
      rw [pruneTaskData_short_activity _ hshort, hact, hns]
    · intro hnex
      have hact : (mutatedDoc (loadTasks s now).1 taskId u now actId t).activity
          = (loadTasks s now).1.activity := by
        rcases hu : u.status with _ | ns
        · simp [mutatedDoc, hu]
        · have hns : ns = t.status := by
            by_contra hne
            exact hnex ⟨ns, hu, hne⟩
          simp [mutatedDoc, hu, hns]
      have hshort :
          ¬ (mutatedDoc (loadTasks s now).1 taskId u now actId t).activity.length
            > MAX_ACTIVITY_ENTRIES := by
        rw [hact]
        omega
      rw [pruneTaskData_short_activity _ hshort, hact]
  · intro hstat
    have hg1 : ("done" : String) ≠ "" ∧ ("done" : String) ≠ t.status :=
      ⟨by decide, Ne.symm hstat⟩
    have hact1 : (mutatedDoc (loadTasks s now).1 taskId
        { status := some "done" } now actId t).activity
        = (loadTasks s now).1.activity ++
          [{ id := actId, type := "status", action := "moved",
             agent := "system", taskId := taskId,
             taskTitle := some t.title, «from» := some t.status,
             «to» := some "done", target := none, message := none,
             logType := none, timestamp := now }] := by
      simp [mutatedDoc, hg1, applyUpdates]
    have hshort1 :
        ¬ (mutatedDoc (loadTasks s now).1 taskId { status := some "done" } now
          actId t).activity.length > MAX_ACTIVITY_ENTRIES := by
      rw [hact1, List.length_append]
      simp only [List.length_singleton]
      omega
    have htasks1 : ∀ x ∈ (mutatedDoc (loadTasks s now).1 taskId
        { status := some "done" } now actId t).tasks,
        ¬ x.logs.length > MAX_LOGS_PER_TASK := by
      intro x hx
      rcases mem_setFirst _ _ _ x hx with rfl | hx
      · exact hlogs t (List.mem_of_find?_eq_some hfind)
      · exact hlogs x hx
    have hid1 : (pruneTaskData (mutatedDoc (loadTasks s now).1 taskId
        { status := some "done" } now actId t)).1
        = mutatedDoc (loadTasks s now).1 taskId { status := some "done" } now
          actId t :=
      pruneTaskData_id _ hshort1 htasks1
    have h1 : (updateTask (fun _ => true) s taskId { status := some "done" }
        now actId).2.1
        = ⟨some (mutatedDoc (loadTasks s now).1 taskId
            { status := some "done" } now actId t), none,
           (loadTasks s now).2.1.cacheLastLoad⟩ := by
      rw [updateTask_success s taskId _ now actId t hfind]
      rw [hid1]
    rw [h1]
    have hpt : ((applyUpdates t { status := some "done" } now).id == taskId)
        = true := by
      have hpa := List.find?_some hfind
      simpa [applyUpdates] using hpa
    have hfind2 : (loadTasks ⟨some (mutatedDoc (loadTasks s now).1 taskId
        { status := some "done" } now actId t), none,
        (loadTasks s now).2.1.cacheLastLoad⟩ now2).1.tasks.find?
          (fun x => x.id == taskId)
        = some (applyUpdates t { status := some "done" } now) := by
      rw [loadTasks_cold]
      exact find?_setFirst _ _ _ t hfind hpt
    rw [updateTask_success _ taskId _ now2 actId2 _ hfind2]
    refine ⟨_, rfl, ?_⟩
    rw [loadTasks_cold]
    have hg2 : ("inbox" : String) ≠ "" ∧
        ("inbox" : String) ≠ (applyUpdates t { status := some "done" } now).status := by
      constructor
      · decide
      · simp [applyUpdates]
    have hact2 : (mutatedDoc (mutatedDoc (loadTasks s now).1 taskId
        { status := some "done" } now actId t) taskId
        { status := some "inbox" } now2 actId2
        (applyUpdates t { status := some "done" } now)).activity
        = (mutatedDoc (loadTasks s now).1 taskId { status := some "done" } now
            actId t).activity ++
          [{ id := actId2, type := "status", action := "moved",
             agent := "system", taskId := taskId,
             taskTitle := some t.title, «from» := some "done",
             «to» := some "inbox", target := none, message := none,
             logType := none, timestamp := now2 }] := by
      simp [mutatedDoc, hg2, applyUpdates]
    have hshort2 : ¬ (mutatedDoc (mutatedDoc (loadTasks s now).1 taskId
        { status := some "done" } now actId t) taskId
        { status := some "inbox" } now2 actId2
        (applyUpdates t { status := some "done" } now)).activity.length
        > MAX_ACTIVITY_ENTRIES := by
      rw [hact2, List.length_append, hact1, List.length_append]
      simp only [List.length_singleton]
      omega
    rw [pruneTaskData_short_activity _ hshort2, hact2, hact1,
      List.append_assoc]
    rfl

/-- Witness for `updateTask_moved_activity` at a concrete input. -/
theorem updateTask_moved_activity_witness :
    ((loadTasks blockedState 100).1.tasks.find? (fun x => x.id == "t1")
      = some ⟨"t1", "Recalibrate", "", "inbox", none, "general", "medium",
              0, 0, [], []⟩) ∧
    ((loadTasks blockedState 100).1.activity.length + 1
      < MAX_ACTIVITY_ENTRIES) ∧
    (∃ d', (updateTask (fun _ => true) blockedState "t1"
        { status := some "done" } 100 "a1").2.1.disk = some d' ∧
      d'.activity = (loadTasks blockedState 100).1.activity ++
        [{ id := "a1", type := "status", action := "moved", agent := "system",
           taskId := "t1", taskTitle := some "Recalibrate",
           «from» := some "inbox", «to» := some "done", target := none,
           message := none, logType := none, timestamp := 100 }]) := by
  refine ⟨by decide, by decide, ?_⟩
  obtain ⟨d', hd, hpos, _⟩ :=
    (updateTask_moved_activity blockedState "t1" { status := some "done" }
      100 200 "a1" "a2"
      ⟨"t1", "Recalibrate", "", "inbox", none, "general", "medium",
       0, 0, [], []⟩
      (by decide)
      (by intro ns h
          simp only [Option.some.injEq] at h
          subst h
          decide)
      (by decide) (by decide)).1
  exact ⟨d', hd, hpos ⟨"done", rfl, by decide⟩⟩

/-! ## Claim C6: `createTask` initial status and activity records -/

/-- Claim C6: a created task has status "assigned" when an assignee is given
(a non-empty agent id) and "inbox" when it is null/absent; exactly one
"created" activity record is appended, plus exactly one "assigned" record
iff an assignee is given. -/
theorem createTask_spec (s : ServerState) (title description : String)
    (assignee : Option String) (category priority : String) (now : Nat)
    (taskId actId1 actId2 : String)
    (hvalid : assignee = none ∨ ∃ a, assignee = some a ∧ a ≠ "")
    (hlen : (loadTasks s now).1.activity.length + 2 ≤ MAX_ACTIVITY_ENTRIES) :
    ((createTask (fun _ => true) s title description assignee category
        priority now taskId actId1 actId2).1.status
      = if assignee = none then "inbox" else "assigned") ∧
    ((createTask (fun _ => true) s title description assignee category
        priority now taskId actId1 actId2).1.assignee = assignee) ∧
    (∃ d', (createTask (fun _ => true) s title description assignee category
        priority now taskId actId1 actId2).2.disk = some d' ∧
      d'.activity = (loadTasks s now).1.activity ++
        [{ id := actId1, type := "task", action := "created",
           agent := "system", taskId := taskId, taskTitle := some title,
           «from» := none, «to» := none, target := none, message := none,
           logType := none, timestamp := now }] ++
        (if assignee = none then [] else
          [{ id := actId2, type := "status", action := "assigned",
             agent := "system", taskId := taskId, taskTitle := none,
             «from» := none, «to» := none, target := assignee,
             message := none, logType := none, timestamp := now }])) := by
  unfold createTask
  rw [saveTasks_success]
  rcases hvalid with rfl | ⟨a, rfl, ha⟩
  · refine ⟨by simp [createTaskDoc, assigneeTruthy],
      by simp [createTaskDoc], _, rfl, ?_⟩
    have hact : (createTaskDoc (loadTasks s now).1 title description none
        category priority now taskId actId1 actId2).2.activity
        = (loadTasks s now).1.activity ++
          [{ id := actId1, type := "task", action := "created",
             agent := "system", taskId := taskId, taskTitle := some title,
             «from» := none, «to» := none, target := none, message := none,
             logType := none, timestamp := now }] := by
      simp [createTaskDoc, assigneeTruthy]
    have hshort : ¬ (createTaskDoc (loadTasks s now).1 title description none
        category priority now taskId actId1 actId2).2.activity.length
        > MAX_ACTIVITY_ENTRIES := by
      rw [hact, List.length_append]
      simp only [List.length_singleton]
      omega
    rw [pruneTaskData_short_activity _ hshort, hact]
    simp
  · have htruthy : assigneeTruthy (some a) = true := by
      simp [assigneeTruthy]
      exact ha
    refine ⟨by simp [createTaskDoc, htruthy], by simp [createTaskDoc], _, rfl, ?_⟩
    have hact : (createTaskDoc (loadTasks s now).1 title description (some a)
        category priority now taskId actId1 actId2).2.activity
        = (loadTasks s now).1.activity ++
          [{ id := actId1, type := "task", action := "created",
             agent := "system", taskId := taskId, taskTitle := some title,
             «from» := none, «to» := none, target := none, message := none,
             logType := none, timestamp := now }] ++
          [{ id := actId2, type := "status", action := "assigned",
             agent := "system", taskId := taskId, taskTitle := none,
             «from» := none, «to» := none, target := some a,
             message := none, logType := none, timestamp := now }] := by
      simp [createTaskDoc, htruthy]
    have hshort : ¬ (createTaskDoc (loadTasks s now).1 title description
        (some a) category priority now taskId actId1 actId2).2.activity.length
        > MAX_ACTIVITY_ENTRIES := by
      rw [hact]
      simp only [List.length_append, List.length_singleton]
      omega
    rw [pruneTaskData_short_activity _ hshort, hact]
    simp

/-- Witness for `createTask_spec` at a concrete input (an assignee given). -/
theorem createTask_spec_witness :
    ((some "geordi" : Option String) = none ∨
      ∃ a, (some "geordi" : Option String) = some a ∧ a ≠ "") ∧
    ((loadTasks blockedState 50).1.activity.length + 2
      ≤ MAX_ACTIVITY_ENTRIES) ∧
    (((createTask (fun _ => true) blockedState "Align dish" "desc"
        (some "geordi") "general" "high" 50 "task-9" "a1" "a2").1.status
      = if (some "geordi" : Option String) = none then "inbox"
        else "assigned") ∧
     ((createTask (fun _ => true) blockedState "Align dish" "desc"
        (some "geordi") "general" "high" 50 "task-9" "a1" "a2").1.assignee
      = some "geordi") ∧
     (∃ d', (createTask (fun _ => true) blockedState "Align dish" "desc"
        (some "geordi") "general" "high" 50 "task-9" "a1" "a2").2.disk
        = some d' ∧
      d'.activity = (loadTasks blockedState 50).1.activity ++
        [{ id := "a1", type := "task", action := "created",
           agent := "system", taskId := "task-9",
           taskTitle := some "Align dish", «from» := none, «to» := none,
           target := none, message := none, logType := none,
           timestamp := 50 }] ++
        (if (some "geordi" : Option String) = none then [] else
          [{ id := "a2", type := "status", action := "assigned",
             agent := "system", taskId := "task-9", taskTitle := none,
             «from» := none, «to» := none, target := some "geordi",
             message := none, logType := none, timestamp := 50 }]))) :=
  ⟨.inr ⟨"geordi", rfl, by decide⟩, by decide,
    createTask_spec blockedState "Align dish" "desc" (some "geordi")
      "general" "high" 50 "task-9" "a1" "a2"
      (.inr ⟨"geordi", rfl, by decide⟩) (by decide)⟩

/-! ## Claim C8: pruning bounds -/

/-- Claim C8: on a document whose activity feed exceeds
`MAX_ACTIVITY_ENTRIES = 500`, `pruneTaskData` truncates the feed to exactly
the 500 most recent entries in their original order, analogously caps each
task's log list at its most recent `MAX_LOGS_PER_TASK = 50` entries, and
reports that it pruned. -/
theorem pruneTaskData_bound (d : TasksDocument)
    (h : d.activity.length > MAX_ACTIVITY_ENTRIES) :
    (pruneTaskData d).1.activity
      = d.activity.drop (d.activity.length - MAX_ACTIVITY_ENTRIES) ∧
    (pruneTaskData d).1.activity.length = MAX_ACTIVITY_ENTRIES ∧
    (pruneTaskData d).1.tasks = d.tasks.map (fun t =>
      if t.logs.length > MAX_LOGS_PER_TASK then
        { t with logs := t.logs.drop (t.logs.length - MAX_LOGS_PER_TASK) }
      else t) ∧
    (∀ x ∈ (pruneTaskData d).1.tasks, x.logs.length ≤ MAX_LOGS_PER_TASK) ∧
    (pruneTaskData d).2 = true := by
  refine ⟨by simp [pruneTaskData, h], ?_, by simp [pruneTaskData, h], ?_,
    by simp [pruneTaskData, h]⟩
  · simp only [pruneTaskData, if_pos h, List.length_drop]
    omega
  · intro x hx
    simp only [pruneTaskData] at hx
    rcases List.mem_map.1 hx with ⟨y, hy, rfl⟩
    by_cases hl : y.logs.length > MAX_LOGS_PER_TASK
    · simp only [if_pos hl, List.length_drop]
      omega
    · simp only [if_neg hl]
      omega

/-- Test fixture: a document with 600 activity entries. -/
def bigActivityDoc : TasksDocument :=
  { getDefaultTasks 0 with
    activity := List.replicate 600
      ⟨"act-1", "task", "created", "system", "t1", none, none, none,
       none, none, none, 0⟩ }

/-- Witness for `pruneTaskData_bound` at a concrete input: after inserting
600 activity entries, the stored activity length is exactly 500. -/
theorem pruneTaskData_bound_witness :
    bigActivityDoc.activity.length > MAX_ACTIVITY_ENTRIES ∧
    ((pruneTaskData bigActivityDoc).1.activity
      = bigActivityDoc.activity.drop
          (bigActivityDoc.activity.length - MAX_ACTIVITY_ENTRIES) ∧
     (pruneTaskData bigActivityDoc).1.activity.length = MAX_ACTIVITY_ENTRIES ∧
     (pruneTaskData bigActivityDoc).1.tasks = bigActivityDoc.tasks.map
       (fun t => if t.logs.length > MAX_LOGS_PER_TASK then
          { t with logs := t.logs.drop (t.logs.length - MAX_LOGS_PER_TASK) }
        else t) ∧
     (∀ x ∈ (pruneTaskData bigActivityDoc).1.tasks,
        x.logs.length ≤ MAX_LOGS_PER_TASK) ∧
     (pruneTaskData bigActivityDoc).2 = true) := by
  have h6 : bigActivityDoc.activity.length = 600 := by
    rw [show bigActivityDoc.activity
        = List.replicate 600
            ⟨"act-1", "task", "created", "system", "t1", none, none, none,
             none, none, none, 0⟩ from rfl]
    exact List.length_replicate 600 _
  have hbig : bigActivityDoc.activity.length > MAX_ACTIVITY_ENTRIES := by
    rw [h6]
    decide
  exact ⟨hbig, pruneTaskData_bound bigActivityDoc hbig⟩

/-! ## Broadcast hub (`broadcast`, src/server.js:1221-1247) -/

/-- A connected client; `isOpen` models `readyState === WebSocket.OPEN`. -/
structure WsClient where
  isOpen : Bool
deriving DecidableEq

/-- The debounce state: `broadcastQueue` and whether `broadcastTimeout` is
armed (src/server.js:1221-1222). -/
structure HubState (P : Type) where
  broadcastQueue : Option P
  timeoutPending : Bool
deriving DecidableEq

/-- Events of the hub: a `broadcast(data)` call, or the armed 100 ms timeout
firing.  A burst of calls arriving within one debounce window is a trace of
`call` events followed by a single `fire`. -/
inductive HubEvent (P : Type) where
  | call (data : P)
  | fire
deriving DecidableEq

/-- The sends of one timeout body (src/server.js:1230-1238): one
`client.send(message)` per client whose `readyState` is OPEN, identified by
its position in the client set, each carrying the queued payload. -/
def fireSends {P : Type} (clients : List WsClient) (d : P) : List (Nat × P) :=
  clients.enum.filterMap fun ic => if ic.2.isOpen then some (ic.1, d) else none

/-- One step of `broadcast`'s debounce machine: a `call d` overwrites the
queue with the latest payload and arms the timeout if it is not armed (it
stays armed otherwise); `fire` sends the queued payload to every open
client, then clears queue and timeout. -/
def hubStep {P : Type} (clients : List WsClient) (s : HubState P) :
    HubEvent P → HubState P × List (Nat × P)
  | .call d => (⟨some d, true⟩, [])
  | .fire =>
    match s.broadcastQueue with
    | some d => (⟨none, false⟩, fireSends clients d)
    | none => (⟨none, false⟩, [])

/-- Run the hub over a trace of events, accumulating all outbound sends. -/
def hubRun {P : Type} (clients : List WsClient) (s : HubState P) :
    List (HubEvent P) → HubState P × List (Nat × P)
  | [] => (s, [])
  | e :: es =>
    ((hubRun clients (hubStep clients s e).1 es).1,
     (hubStep clients s e).2 ++ (hubRun clients (hubStep clients s e).1 es).2)

theorem filterMap_if_eq_filter_map {α β : Type} (p : α → Bool) (g : α → β)
    (l : List α) :
    l.filterMap (fun x => if p x then some (g x) else none)
      = (l.filter p).map g := by
  induction l with
  | nil => rfl
  | cons a l ih =>
    by_cases hp : p a = true
    · simp [List.filterMap_cons, hp, List.filter_cons, ih]
    · simp [List.filterMap_cons, hp, List.filter_cons, ih]

theorem hubRun_burst {P : Type} (clients : List WsClient) :
    ∀ (ds : List P) (d : P), ds.getLast? = some d → ∀ s : HubState P,
    hubRun clients s (ds.map HubEvent.call ++ [HubEvent.fire])
      = (⟨none, false⟩, fireSends clients d)
  | [], d, hd => by simp at hd
  | [d1], d, hd => by
    intro s
    have h1 : d1 = d := by simpa using hd
    subst h1
    simp [hubRun, hubStep]
  | d1 :: d2 :: ds, d, hd => by
    intro s
    have hd' : (d2 :: ds).getLast? = some d := by
      simpa [List.getLast?_cons_cons] using hd
    have ih := hubRun_burst clients (d2 :: ds) d hd' ⟨some d1, true⟩
    have step : hubRun clients s
        ((d1 :: d2 :: ds).map HubEvent.call ++ [HubEvent.fire])
        = ((hubRun clients ⟨some d1, true⟩
            ((d2 :: ds).map HubEvent.call ++ [HubEvent.fire])).1,
           [] ++ (hubRun clients ⟨some d1, true⟩
            ((d2 :: ds).map HubEvent.call ++ [HubEvent.fire])).2) := rfl
    rw [step, ih]
    rfl

/-- Claim C9: for a burst of `broadcast` calls that all fall inside one
debounce window (so the armed timeout fires once, after the last call),
starting from the idle hub state exactly one send goes to each connected
open client — no send to non-open clients, no client twice — and its payload
is that of the last call of the burst; no send happens during the calls
themselves. -/
theorem broadcast_debounce {P : Type} (clients : List WsClient) (ds : List P)
    (d : P) (hd : ds.getLast? = some d) :
    (hubRun clients ⟨none, false⟩
        (ds.map HubEvent.call ++ [HubEvent.fire])).2
      = (clients.enum.filter (fun ic => ic.2.isOpen)).map
          (fun ic => (ic.1, d)) ∧
    ((hubRun clients ⟨none, false⟩
        (ds.map HubEvent.call ++ [HubEvent.fire])).2.map Prod.fst).Nodup ∧
    (∀ ic ∈ clients.enum, ic.2.isOpen = true →
      ic.1 ∈ (hubRun clients ⟨none, false⟩
        (ds.map HubEvent.call ++ [HubEvent.fire])).2.map Prod.fst) ∧
    (∀ x ∈ (hubRun clients ⟨none, false⟩
        (ds.map HubEvent.call ++ [HubEvent.fire])).2, x.2 = d) := by
  have hrun := hubRun_burst clients ds d hd ⟨none, false⟩
  rw [hrun]
  have hfs : fireSends clients d
      = (clients.enum.filter (fun ic => ic.2.isOpen)).map
          (fun ic => (ic.1, d)) :=
    filterMap_if_eq_filter_map _ _ _
  refine ⟨hfs, ?_, ?_, ?_⟩
  · rw [hfs, List.map_map]
    have hsub : ((clients.enum.filter (fun ic => ic.2.isOpen)).map
        Prod.fst).Sublist (clients.enum.map Prod.fst) :=
      (List.filter_sublist _).map _
    exact List.Nodup.sublist hsub (List.nodup_enum_map_fst clients)
  · intro ic hic hopen
    rw [hfs, List.map_map]
    exact List.mem_map.2 ⟨ic, List.mem_filter.2 ⟨hic, hopen⟩, rfl⟩
  · intro x hx
    rw [hfs] at hx
    rcases List.mem_map.1 hx with ⟨ic, _, rfl⟩
    rfl

/-- Witness for `broadcast_debounce`: 10 broadcast calls in one window to a
client set of two open and one non-open connection yield exactly one send
per open client, carrying the 10th payload. -/
theorem broadcast_debounce_witness :
    (([1, 2, 3, 4, 5, 6, 7, 8, 9, 10] : List Nat).getLast? = some 10) ∧
    ((hubRun [⟨true⟩, ⟨false⟩, ⟨true⟩] ⟨none, false⟩
        (([1, 2, 3, 4, 5, 6, 7, 8, 9, 10] : List Nat).map HubEvent.call
          ++ [HubEvent.fire])).2
      = [(0, 10), (2, 10)]) := by
  refine ⟨by decide, ?_⟩
  have h := (broadcast_debounce [⟨true⟩, ⟨false⟩, ⟨true⟩]
    [1, 2, 3, 4, 5, 6, 7, 8, 9, 10] 10 (by decide)).1
  rw [h]
  decide

/-! ## Message store (`createMessage`, src/server.js:798-820) -/

/-- A persisted inter-agent message as built by `createMessage`. -/
structure Message where
  id : String
  «from» : String
  «to» : String
  type : String
  subject : String
  content : String
  timestamp : Nat
  read : Bool
  status : String
  taskId : Option String
deriving DecidableEq

/-- The root persisted messages document. -/
structure MessagesDocument where
  version : String
  lastUpdated : Nat
  messages : List Message
deriving DecidableEq

/-- Embedding of `createMessage(from, to, subject, content, type, taskId)`
(src/server.js:799-820) combined with the `lastUpdated` refresh of
`saveMessages` (src/server.js:786): builds the message with lowercased
agent ids, `read: false`, `status: "pending"`, and appends it. -/
def createMessage (d : MessagesDocument)
    («from» «to» subject content type : String) (taskId : Option String)
    (now : Nat) (msgId : String) : Message × MessagesDocument :=
  let message : Message :=
    { id := msgId, «from» := «from».toLower, «to» := «to».toLower,
      type := type, subject := subject, content := content,
      timestamp := now, read := false, status := "pending", taskId := taskId }
  (message, { d with messages := d.messages ++ [message], lastUpdated := now })

/-- Claim C10: every message created by `createMessage` has `read = false`,
`status = "pending"`, lowercased `from`/`to` agent ids, and is appended at
the end of the messages list with all other messages unchanged. -/
theorem createMessage_spec (d : MessagesDocument)
    («from» «to» subject content type : String) (taskId : Option String)
    (now : Nat) (msgId : String) :
    ((createMessage d «from» «to» subject content type taskId now
        msgId).1.read = false) ∧
    ((createMessage d «from» «to» subject content type taskId now
        msgId).1.status = "pending") ∧
    ((createMessage d «from» «to» subject content type taskId now
        msgId).1.«from» = «from».toLower) ∧
    ((createMessage d «from» «to» subject content type taskId now
        msgId).1.«to» = «to».toLower) ∧
    ((createMessage d «from» «to» subject content type taskId now
        msgId).2.messages
      = d.messages ++
        [(createMessage d «from» «to» subject content type taskId now
          msgId).1]) :=
  ⟨rfl, rfl, rfl, rfl, rfl⟩

end LCARS
